import Mathlib

/-!
Verification of the amper-reading backend (Express + Mongoose REST API).

The JavaScript sources are shallowly embedded below:
* `src/middleware/validation.js`  → `validateAmperData`, `validateUsername`
* `src/models/AmperReading.js`    → `getUserStats` (aggregation pipeline)
* `src/routes/api.js`             → `parseTimeRange`, the grouping engine
  (`groupByUsername` / `productUsers`), the filtered-statistics aggregation
  (`readingStats`), the ingest pipeline (`ingest`) and the read handlers.
* `src/unnamed/part_001`          → the older route variant whose readings
  handler actually applies the parsed time cutoff to the query filter.

JavaScript numbers are modelled as rationals (`ℚ`), instants as integer
milliseconds (`ℤ`), and duck-typed request fields as `JSVal`.  Fallible
store calls (Mongoose id casting) return `Except`.
-/

namespace AmperBackend

/-- Model of a dynamically typed JavaScript request-body value.
`nan` is kept separate from finite numbers (`num`). -/
inductive JSVal where
  | undefined : JSVal
  | null : JSVal
  | nan : JSVal
  | bool : Bool → JSVal
  | num : ℚ → JSVal
  | str : String → JSVal
deriving DecidableEq, Repr

/-- JavaScript truthiness test (`!x` in the source negates this). -/
def JSVal.falsy : JSVal → Bool
  | .undefined => true
  | .null => true
  | .nan => true
  | .bool b => !b
  | .num q => q = 0
  | .str s => s = ""

deriving instance DecidableEq for Except

def isDigitChar (c : Char) : Bool := '0' ≤ c && c ≤ '9'

/-- The JavaScript `String.prototype.trim()`: strip whitespace from both
ends (defined over the character list so that it evaluates by reduction). -/
def jsTrim (s : String) : String :=
  ⟨((s.toList.dropWhile Char.isWhitespace).reverse.dropWhile Char.isWhitespace).reverse⟩

def digitsToNat (l : List Char) : ℕ :=
  l.foldl (fun a c => 10 * a + (c.toNat - 48)) 0

/-- Decimal literal parser backing the `Number(string)` coercion:
optional digits, optionally followed by a dot and digits, with at least
one digit overall (hex/exponent literals are not modelled; no claim
exercises them). -/
def parseUnsignedDecimal (l : List Char) : Option ℚ :=
  let intPart := l.takeWhile isDigitChar
  let rest := l.dropWhile isDigitChar
  match rest with
  | [] => if intPart.isEmpty then none else some (digitsToNat intPart)
  | '.' :: frac =>
      if frac.all isDigitChar && !(intPart.isEmpty && frac.isEmpty) then
        some ((digitsToNat intPart : ℚ) + (digitsToNat frac : ℚ) / (10 : ℚ) ^ frac.length)
      else none
  | _ => none

def parseSignedDecimal (l : List Char) : Option ℚ :=
  match l with
  | '-' :: rest => (parseUnsignedDecimal rest).map (fun q => -q)
  | '+' :: rest => parseUnsignedDecimal rest
  | _ => parseUnsignedDecimal l

/-- `Number(s)` for a string `s`: whitespace-trimmed empty string gives `0`,
otherwise the decimal value, `none` standing for `NaN`. -/
def strToNumber (s : String) : Option ℚ :=
  let t := jsTrim s
  if t = "" then some 0 else parseSignedDecimal t.toList

/-- The JavaScript `Number(x)` coercion; `none` stands for `NaN`. -/
def JSVal.toNumber : JSVal → Option ℚ
  | .undefined => none
  | .null => some 0
  | .nan => none
  | .bool b => some (if b then 1 else 0)
  | .num q => some q
  | .str s => strToNumber s

/-- One stored amper sample (collection `amper_readings`). -/
structure Reading where
  username : String
  amper : ℚ
  product : String
  sensor : Option String
  createdAt : ℤ
deriving DecidableEq, Repr

/-- One product document (collection `products`). -/
structure Product where
  id : String
  name : String
  sensors : List String
deriving DecidableEq, Repr

/-- `Math.round`: round half toward positive infinity. -/
def jsRound (q : ℚ) : ℤ := ⌊q + 1 / 2⌋

/-- `Number(x.toFixed(2))` for the nonnegative values this code produces:
round to two decimal places, half up. -/
def round2 (q : ℚ) : ℚ := (jsRound (q * 100) : ℚ) / 100

/-! ## Validation layer (`src/middleware/validation.js`) -/

/-- An inbound `POST /api/data` body. The `sensor` field is forwarded
verbatim by the middleware; it is modelled as an optional string. -/
structure WritePayload where
  username : JSVal
  amper : JSVal
  productId : JSVal
  sensor : Option String
deriving DecidableEq, Repr

/-- The cleaned body produced by `validateAmperData` (trimmed username,
coerced numeric amper); `productId` is passed through untouched. -/
structure CleanWrite where
  username : String
  amper : ℚ
  productId : JSVal
  sensor : Option String
deriving DecidableEq, Repr

/-- `validateAmperData` from `src/middleware/validation.js` (the named
middleware file: it checks `username` and `amper` only — the productId
format check exists only in the `src/unnamed/part_002` variant). -/
def validateAmperData (p : WritePayload) : Except String CleanWrite :=
  if p.username.falsy then .error "Username is required"
  else if p.amper = .undefined ∨ p.amper = .null then .error "Amper value is required"
  else
    match p.username with
    | .str u =>
        if (jsTrim u).length = 0 then .error "Username must be a non-empty string"
        else if u.length > 50 then .error "Username cannot exceed 50 characters"
        else
          match p.amper.toNumber with
          | none => .error "Amper value must be a valid number"
          | some a =>
              if a < 0 then .error "Amper value cannot be negative"
              else if a > 100 then .error "Amper value cannot exceed 100A"
              else .ok ⟨jsTrim u, a, p.productId, p.sensor⟩
    | _ => .error "Username must be a non-empty string"

/-- `validateUsername` from `src/middleware/validation.js` (path-parameter
check); returns the trimmed username on success. -/
def validateUsername (u : JSVal) : Except String String :=
  match u with
  | .str s =>
      if s = "" ∨ (jsTrim s).length = 0 then .error "Valid username is required"
      else if s.length > 50 then .error "Username cannot exceed 50 characters"
      else .ok (jsTrim s)
  | _ => .error "Valid username is required"

/-! ## Store model (Mongoose) -/

def isHexChar (c : Char) : Bool :=
  isDigitChar c || ('a' ≤ c && c ≤ 'f') || ('A' ≤ c && c ≤ 'F')

/-- The store's identifier format: 24 hexadecimal characters (MongoDB
ObjectId, as in the `part_002` validator's regex). -/
def isObjectIdString (s : String) : Bool :=
  s.length = 24 && s.toList.all isHexChar

/-- `Product.findById(v)`. Mongoose semantics: `undefined`/`null` query
`{_id: null}` and match nothing; a string is cast to an ObjectId, raising
a `CastError` (`Except.error`) when it is not in the id format; any other
value also fails the cast. -/
def findById (catalog : List Product) : JSVal → Except Unit (Option Product)
  | .undefined => .ok none
  | .null => .ok none
  | .str s =>
      if isObjectIdString s then .ok (catalog.find? (fun p => p.id = s)) else .error ()
  | _ => .error ()

/-- Outcome of `POST /api/data`: the HTTP status and the Reading inserted
into the store, if any. -/
structure IngestResult where
  status : ℕ
  inserted : Option Reading
deriving DecidableEq, Repr

/-- The `POST /api/data` pipeline from `src/routes/api.js`: validation
middleware, then product lookup (400 when missing, 500 when the id cast
throws), then `newReading.save()`.  The handler performs no check of the
sensor field against the product's sensors; the schema stores it trimmed. -/
def ingest (catalog : List Product) (now : ℤ) (p : WritePayload) : IngestResult :=
  match validateAmperData p with
  | .error _ => ⟨400, none⟩
  | .ok c =>
      match findById catalog c.productId with
      | .error _ => ⟨500, none⟩
      | .ok none => ⟨400, none⟩
      | .ok (some prod) =>
          ⟨201, some ⟨c.username, c.amper, prod.id, c.sensor.map (fun s => jsTrim s), now⟩⟩

/-! ## Aggregations (`src/models/AmperReading.js` and the stats handler) -/

/-- A `$sum` of `$cond [p, 1, 0]` over a list of amper values. -/
def condSum (l : List ℚ) (p : ℚ → Prop) [DecidablePred p] : ℕ :=
  (l.map (fun a => if p a then 1 else 0)).sum

/-- Result shape of `AmperReading.getUserStats`. -/
structure UserStats where
  totalReadings : ℕ
  highAmpCount : ℕ
  lowAmpCount : ℕ
  percentage : ℤ
deriving DecidableEq, Repr

/-- `AmperReading.getUserStats(username)`: the `$match` on username plus
`$group` with conditional sums, then the percentage computation
(`Math.round((high / total) * 100)`, `0` when the aggregation is empty). -/
def getUserStats (store : List Reading) (username : String) : UserStats :=
  let matched := store.filter (fun r => r.username = username)
  if matched.length = 0 then ⟨0, 0, 0, 0⟩
  else
    let total := matched.length
    let high := condSum (matched.map Reading.amper) (fun a => 1 ≤ a)
    let low := condSum (matched.map Reading.amper) (fun a => a < 1)
    ⟨total, high, low,
      if 0 < total then jsRound (((high : ℚ) / (total : ℚ)) * 100) else 0⟩

/-- Statistics block of `GET .../readings/stats`. -/
structure Statistics where
  totalReadings : ℕ
  minAmper : ℚ
  maxAmper : ℚ
  avgAmper : ℚ
  off : ℕ
  low : ℕ
  mid : ℕ
  high : ℕ
deriving DecidableEq, Repr

def listMinQ : List ℚ → ℚ
  | [] => 0
  | a :: rest => rest.foldl min a

def listMaxQ : List ℚ → ℚ
  | [] => 0
  | a :: rest => rest.foldl max a

/-- The `$group` stage of the filtered-statistics endpoint over the amper
values of the matched readings, including the handler's all-zero response
when the aggregation returns no row, and the `toFixed(2)` rounding of
min/max/avg. -/
def readingStats (l : List ℚ) : Statistics :=
  if l.length = 0 then ⟨0, 0, 0, 0, 0, 0, 0, 0⟩
  else
    ⟨l.length,
     round2 (listMinQ l),
     round2 (listMaxQ l),
     round2 (l.sum / (l.length : ℚ)),
     condSum l (fun a => a = 0),
     condSum l (fun a => 0 < a ∧ a < 1 / 2),
     condSum l (fun a => 1 / 2 ≤ a ∧ a < 1),
     condSum l (fun a => 1 ≤ a)⟩

/-! ## Time-range parsing (`parseTimeRange` in `src/routes/api.js`) -/

/-- The regex `^(\d+)([hd])$`: one or more digits followed by `h` or `d`.
Returns the numeric magnitude and the unit character on a match. -/
def matchTimeToken (s : String) : Option (ℕ × Char) :=
  match s.toList.getLast? with
  | none => none
  | some u =>
      if u = 'h' ∨ u = 'd' then
        let ds := s.toList.dropLast
        if !ds.isEmpty && ds.all isDigitChar then some (digitsToNat ds, u) else none
      else none

/-- `parseTimeRange(timeRange)` with `now` in epoch milliseconds: absent or
falsy token → no filter; token failing the regex → no filter; magnitude
outside {1,6,12,24} hours / {7,30} days → no filter; otherwise the instant
`now - hoursToSubtract * 60 * 60 * 1000`. -/
def parseTimeRange (timeRange : Option String) (now : ℤ) : Option ℤ :=
  match timeRange with
  | none => none
  | some s =>
      if s = "" then none
      else
        match matchTimeToken s with
        | none => none
        | some (v, u) =>
            if u = 'h' ∧ v ∉ [1, 6, 12, 24] then none
            else if u = 'd' ∧ v ∉ [7, 30] then none
            else
              let hoursToSubtract : ℤ := if u = 'h' then (v : ℤ) else (v : ℤ) * 24
              some (now - hoursToSubtract * 60 * 60 * 1000)

/-! ## Grouping engine (`GET /api/products/:productId/users` handler) -/

/-- A per-user accumulator mirroring the handler's `userGroups[username]`
object; `readings` is the temporary array deleted before responding. -/
structure UserGroup where
  username : String
  totalReadings : ℕ
  latestReading : Option Reading
  averageAmper : ℚ
  readings : List Reading
deriving DecidableEq, Repr

def emptyGroup (u : String) : UserGroup := ⟨u, 0, none, 0, []⟩

/-- The `latestReading` update: replace only on strictly newer `createdAt`
(ties keep the earlier-seen reading). -/
def updateLatest (cur : Option Reading) (r : Reading) : Option Reading :=
  match cur with
  | none => some r
  | some m => if m.createdAt < r.createdAt then some r else some m

/-- Body of the `readings.forEach` callback for one group. -/
def addReading (r : Reading) (g : UserGroup) : UserGroup :=
  { g with
    totalReadings := g.totalReadings + 1,
    readings := g.readings ++ [r],
    latestReading := updateLatest g.latestReading r }

/-- One `forEach` step over the whole accumulator: create the group on
first sight of a username, then update it. -/
def groupStep (acc : List UserGroup) (r : Reading) : List UserGroup :=
  if acc.any (fun g => g.username = r.username) then
    acc.map (fun g => if g.username = r.username then addReading r g else g)
  else
    acc ++ [addReading r (emptyGroup r.username)]

/-- The grouping pass (`readings.forEach(...)`), preserving first-occurrence
order of usernames like JavaScript object keys. -/
def groupByUsername (l : List Reading) : List UserGroup :=
  l.foldl groupStep []

/-- The averaging pass: `averageAmper = readings.length > 0 ?
Number((sum / readings.length).toFixed(2)) : 0`, then
`delete userGroups[username].readings`. -/
def finalizeGroup (g : UserGroup) : UserGroup :=
  { g with
    averageAmper :=
      if 0 < g.readings.length then
        round2 ((g.readings.map Reading.amper).sum / (g.readings.length : ℚ))
      else 0,
    readings := [] }

/-- The `users` array of `GET /api/products/:productId/users`, computed from
the (already product-filtered, sorted) reading list. -/
def productUsers (l : List Reading) : List UserGroup :=
  (groupByUsername l).map finalizeGroup

/-! ## Query filters and read handlers (`src/routes/api.js`, `src/unnamed/part_001`) -/

/-- The mongo query document the handlers build (`baseFilter`): equality on
`product`/`username`, optional equality on `sensor`, optional
`createdAt: { $gte: ... }`. -/
structure QueryFilter where
  product : String
  username : String
  sensor : Option String
  createdAtGte : Option ℤ
deriving DecidableEq, Repr

def matchesFilter (f : QueryFilter) (r : Reading) : Bool :=
  r.product = f.product && r.username = f.username &&
  (match f.sensor with
   | none => true
   | some s => r.sensor = some s) &&
  (match f.createdAtGte with
   | none => true
   | some t => t ≤ r.createdAt)

/-- `AmperReading.find(filter)` before sorting. -/
def storeFind (store : List Reading) (f : QueryFilter) : List Reading :=
  store.filter (matchesFilter f)

/-- Insertion into a list sorted by descending `createdAt`. -/
def insertDesc (r : Reading) : List Reading → List Reading
  | [] => [r]
  | x :: xs => if x.createdAt < r.createdAt then r :: x :: xs else x :: insertDesc r xs

/-- `.sort({ createdAt: -1 })`. -/
def sortByCreatedDesc (l : List Reading) : List Reading :=
  l.foldr insertDesc []

/-- The successful payload of the paginated read endpoints. -/
structure PagedResult where
  sensor : Option String
  readings : List Reading
  total : ℕ
  filteredFrom : Option ℤ
deriving DecidableEq, Repr

/-- The observable outcomes of a read handler. -/
inductive ReadResp where
  | notFound : ReadResp
  | badRequest : String → ReadResp
  | serverError : ReadResp
  | ok : PagedResult → ReadResp
deriving DecidableEq, Repr

/-- The 400 message listing a product's valid sensors (source template:
Sensor <name> not found in product. Available sensors: <list>). -/
def sensorErrMsg (d : String) (sensors : List String) : String :=
  "Sensor " ++ d ++ " not found in product. Available sensors: " ++
    String.intercalate ", " sensors

/-- Skip/limit pagination as mongoose applies it: skip `(page-1)*limit`
documents of the sorted result, then take `limit`. -/
def paginate (lim page : ℕ) (l : List Reading) : List Reading :=
  (l.drop ((page - 1) * lim)).take lim

/-- `GET /api/products/:productId/users/:username` from `src/routes/api.js`:
the parsed time cutoff is computed (and echoed in `meta.filteredFrom`) but
the `createdAt` condition is commented out in the source, so the filter
carries no time bound. -/
def userReadingsEndpointApi (catalog : List Product) (store : List Reading)
    (productId username : String) (timeRange : Option String)
    (lim page : ℕ) (now : ℤ) : ReadResp :=
  match findById catalog (.str productId) with
  | .error _ => .serverError
  | .ok none => .notFound
  | .ok (some _) =>
      let startDate := parseTimeRange timeRange now
      let baseFilter : QueryFilter := ⟨productId, username, none, none⟩
      let rs := storeFind store baseFilter
      .ok ⟨none, paginate lim page (sortByCreatedDesc rs), rs.length, startDate⟩

/-- `sensor.replace(/\+/g, ' ')`. -/
def plusToSpace (s : String) : String :=
  ⟨s.toList.map (fun c => if c = '+' then ' ' else c)⟩

def hexVal (c : Char) : ℕ :=
  if isDigitChar c then c.toNat - 48
  else if 'a' ≤ c && c ≤ 'f' then c.toNat - 87
  else if 'A' ≤ c && c ≤ 'F' then c.toNat - 55
  else 0

/-- Percent-decoding behind `decodeURIComponent`: `%` followed by two hex
digits becomes the coded character, a malformed escape raises `URIError`
(`none`).  Multi-byte UTF-8 sequences are modelled byte-by-byte; the
claims only exercise the ASCII range, where this agrees with JavaScript. -/
def percentDecode : List Char → Option (List Char)
  | [] => some []
  | c :: rest =>
      if c = '%' then
        match rest with
        | h1 :: h2 :: rest2 =>
            if isHexChar h1 && isHexChar h2 then
              (percentDecode rest2).map (fun l => Char.ofNat (16 * hexVal h1 + hexVal h2) :: l)
            else none
        | _ => none
      else (percentDecode rest).map (fun l => c :: l)

def decodeURIComponentModel (s : String) : Option String :=
  (percentDecode s.toList).map List.asString

/-- The handlers' sensor decoding
`sensor ? decodeURIComponent(sensor.replace(/\+/g, ' ')) : sensor`:
outer `none` models the thrown `URIError`, the inner option is the
possibly-absent decoded parameter. -/
def decodeSensorParam (sensorParam : Option String) : Option (Option String) :=
  match sensorParam with
  | none => some none
  | some s => if s = "" then some (some "") else (decodeURIComponentModel (plusToSpace s)).map some

def sensorTruthy : Option String → Bool
  | none => false
  | some d => d ≠ ""

/-- `GET /api/products/:productId/users/:username/readings` from
`src/routes/api.js`: decode the sensor parameter, 404 on missing product,
400 when a truthy decoded sensor is not among the product's sensors,
otherwise query with the sensor equality filter; the time cutoff is
computed but (as in the source) commented out of the filter. -/
def sensorReadingsEndpointApi (catalog : List Product) (store : List Reading)
    (productId username : String) (sensorParam timeRange : Option String)
    (lim page : ℕ) (now : ℤ) : ReadResp :=
  match decodeSensorParam sensorParam with
  | none => .serverError
  | some decodedSensor =>
      match findById catalog (.str productId) with
      | .error _ => .serverError
      | .ok none => .notFound
      | .ok (some product) =>
          if sensorTruthy decodedSensor ∧ decodedSensor.getD "" ∉ product.sensors then
            .badRequest (sensorErrMsg (decodedSensor.getD "") product.sensors)
          else
            let startDate := parseTimeRange timeRange now
            let sensorFilter := if sensorTruthy decodedSensor then decodedSensor else none
            let baseFilter : QueryFilter := ⟨productId, username, sensorFilter, none⟩
            let rs := storeFind store baseFilter
            .ok ⟨sensorFilter, paginate lim page (sortByCreatedDesc rs), rs.length, startDate⟩

/-- `GET /api/products/:productId/users/:username/readings` from
`src/unnamed/part_001`: no decoding of the sensor parameter, and the time
cutoff IS applied (`baseFilter.createdAt = { $gte: startDate }`). -/
def sensorReadingsEndpointPart001 (catalog : List Product) (store : List Reading)
    (productId username : String) (sensorParam timeRange : Option String)
    (lim page : ℕ) (now : ℤ) : ReadResp :=
  match findById catalog (.str productId) with
  | .error _ => .serverError
  | .ok none => .notFound
  | .ok (some product) =>
      if sensorTruthy sensorParam ∧ sensorParam.getD "" ∉ product.sensors then
        .badRequest (sensorErrMsg (sensorParam.getD "") product.sensors)
      else
        let startDate := parseTimeRange timeRange now
        let sensorFilter := if sensorTruthy sensorParam then sensorParam else none
        let baseFilter : QueryFilter := ⟨productId, username, sensorFilter, startDate⟩
        let rs := storeFind store baseFilter
        .ok ⟨sensorFilter, paginate lim page (sortByCreatedDesc rs), rs.length, startDate⟩

/-! ## Derived forms used in the proofs -/

/-- Folding a run of readings into one group (the effect of the `forEach`
restricted to a single username). -/
def foldAdd (g : UserGroup) (rs : List Reading) : UserGroup :=
  rs.foldl (fun g r => addReading r g) g

/-- The `latestReading` accumulator in isolation. -/
def latestFold (init : Option Reading) (rs : List Reading) : Option Reading :=
  rs.foldl updateLatest init

/-! ## Concrete fixtures -/

def demoId : String := "aaaaaaaaaaaaaaaaaaaaaaaa"

def demoProduct : Product := ⟨demoId, "Demo", ["temp"]⟩

/-- A product whose only sensor name contains a space, for the
URL-decoding claim. -/
def spacedProduct : Product := ⟨demoId, "Demo", ["temp sensor"]⟩

/-- A username of raw length 51 that trims to the single character `a`. -/
def spaceyUsername : String := "a" ++ String.mk (List.replicate 50 ' ')

def rA1 : Reading := ⟨"a", 1, "p", none, 0⟩

def rA2 : Reading := ⟨"a", 1 / 2, "p", none, 1⟩

def rB : Reading := ⟨"b", 2, "p", none, 2⟩

/-- A reading created at epoch 0, far older than any recent cutoff. -/
def oldReading : Reading := ⟨"u", 1, demoId, none, 0⟩

/-- A reading inside the last-24-hours window of the fixture instant. -/
def recentReading : Reading := ⟨"u", 1, demoId, none, 999999999999⟩

/-! ## Helper lemmas -/

lemma condSum_nil (p : ℚ → Prop) [DecidablePred p] : condSum [] p = 0 := rfl

lemma condSum_cons (a : ℚ) (l : List ℚ) (p : ℚ → Prop) [DecidablePred p] :
    condSum (a :: l) p = (if p a then 1 else 0) + condSum l p := by
  simp [condSum]

lemma condSum_le_length (l : List ℚ) (p : ℚ → Prop) [DecidablePred p] :
    condSum l p ≤ l.length := by
  induction l with
  | nil => simp [condSum_nil]
  | cons a t ih =>
      rw [condSum_cons]
      split_ifs <;> simp <;> omega

lemma band_ite_sum (a : ℚ) (ha : 0 ≤ a) :
    ((if a = 0 then 1 else 0) + (if 0 < a ∧ a < 1 / 2 then 1 else 0)
      + (if 1 / 2 ≤ a ∧ a < 1 then 1 else 0) + (if 1 ≤ a then 1 else 0) : ℕ) = 1 := by
  by_cases h0 : a = 0
  · have h1 : ¬(0 < a ∧ a < 1 / 2) := by rintro ⟨h, _⟩; rw [h0] at h; exact lt_irrefl 0 h
    have h2 : ¬(1 / 2 ≤ a ∧ a < 1) := by rintro ⟨h, _⟩; rw [h0] at h; linarith
    have h3 : ¬(1 ≤ a) := by rw [h0]; norm_num
    rw [if_pos h0, if_neg h1, if_neg h2, if_neg h3]
  · have hpos : 0 < a := lt_of_le_of_ne ha (fun e => h0 e.symm)
    by_cases hlow : a < 1 / 2
    · have h2 : ¬(1 / 2 ≤ a ∧ a < 1) := by rintro ⟨h, _⟩; linarith
      have h3 : ¬(1 ≤ a) := by intro h; linarith
      rw [if_neg h0, if_pos ⟨hpos, hlow⟩, if_neg h2, if_neg h3]
    · by_cases hmid : a < 1
      · have h1 : ¬(0 < a ∧ a < 1 / 2) := by rintro ⟨_, h⟩; exact hlow h
        have h3 : ¬(1 ≤ a) := by intro h; linarith
        rw [if_neg h0, if_neg h1, if_pos ⟨not_lt.mp hlow, hmid⟩, if_neg h3]
      · have h1 : ¬(0 < a ∧ a < 1 / 2) := by rintro ⟨_, h⟩; exact hlow h
        have h2 : ¬(1 / 2 ≤ a ∧ a < 1) := by rintro ⟨_, h⟩; exact hmid h
        rw [if_neg h0, if_neg h1, if_neg h2, if_pos (not_lt.mp hmid)]

lemma condSum_bands (l : List ℚ) (h : ∀ a ∈ l, 0 ≤ a) :
    condSum l (fun a => a = 0) + condSum l (fun a => 0 < a ∧ a < 1 / 2)
      + condSum l (fun a => 1 / 2 ≤ a ∧ a < 1) + condSum l (fun a => 1 ≤ a) = l.length := by
  induction l with
  | nil => simp [condSum_nil]
  | cons a t ih =>
      have ha : 0 ≤ a := h a (List.mem_cons_self a t)
      have ht : ∀ x ∈ t, 0 ≤ x := fun x hx => h x (List.mem_cons_of_mem a hx)
      have hsum := band_ite_sum a ha
      simp only [condSum_cons, List.length_cons]
      have := ih ht
      omega

/-! ## C1 -/

/-- C1: in the filtered-statistics aggregation, the four bands
(`off` exactly 0, `low` in (0, 0.5), `mid` in [0.5, 1), `high` ≥ 1)
partition any set of amper values drawn from [0, 100], so their counts sum
to `totalReadings`; all statistics are zero on the empty set; and the
example values [0, 0.3, 0.5, 0.9, 1.0, 5.0] give off=1, low=1, mid=2,
high=2. -/
theorem bands_partition_spec :
    (∀ l : List ℚ, (∀ a ∈ l, 0 ≤ a ∧ a ≤ 100) →
      (readingStats l).off + (readingStats l).low + (readingStats l).mid
          + (readingStats l).high = (readingStats l).totalReadings ∧
        (readingStats l).totalReadings = l.length) ∧
    readingStats [] = ⟨0, 0, 0, 0, 0, 0, 0, 0⟩ ∧
    (readingStats [0, 3 / 10, 1 / 2, 9 / 10, 1, 5]).off = 1 ∧
    (readingStats [0, 3 / 10, 1 / 2, 9 / 10, 1, 5]).low = 1 ∧
    (readingStats [0, 3 / 10, 1 / 2, 9 / 10, 1, 5]).mid = 2 ∧
    (readingStats [0, 3 / 10, 1 / 2, 9 / 10, 1, 5]).high = 2 := by
  refine ⟨?_, by rfl, by norm_num [readingStats, condSum], by norm_num [readingStats, condSum],
    by norm_num [readingStats, condSum], by norm_num [readingStats, condSum]⟩
  intro l h
  cases l with
  | nil => simp [readingStats]
  | cons a t =>
      have hne : (a :: t).length ≠ 0 := by simp
      constructor
      · show condSum (a :: t) (fun a => a = 0) + condSum (a :: t) (fun a => 0 < a ∧ a < 1 / 2)
            + condSum (a :: t) (fun a => 1 / 2 ≤ a ∧ a < 1) + condSum (a :: t) (fun a => 1 ≤ a)
            = (readingStats (a :: t)).totalReadings
        rw [condSum_bands (a :: t) (fun x hx => (h x hx).1)]
        simp [readingStats]
      · simp [readingStats]

/-- Witness for C1 at the spec's example list. -/
theorem bands_partition_spec_witness :
    (readingStats [0, 3 / 10, 1 / 2, 9 / 10, 1, 5]).off
        + (readingStats [0, 3 / 10, 1 / 2, 9 / 10, 1, 5]).low
        + (readingStats [0, 3 / 10, 1 / 2, 9 / 10, 1, 5]).mid
        + (readingStats [0, 3 / 10, 1 / 2, 9 / 10, 1, 5]).high
      = (readingStats [0, 3 / 10, 1 / 2, 9 / 10, 1, 5]).totalReadings :=
  (bands_partition_spec.1 [0, 3 / 10, 1 / 2, 9 / 10, 1, 5] (by norm_num)).1

lemma getUserStats_eq_zero (store : List Reading) (u : String)
    (h : (store.filter (fun r => r.username = u)).length = 0) :
    getUserStats store u = ⟨0, 0, 0, 0⟩ := by
  simp [getUserStats, h]

lemma getUserStats_eq_pos (store : List Reading) (u : String)
    (h : (store.filter (fun r => r.username = u)).length ≠ 0) :
    getUserStats store u =
      ⟨(store.filter (fun r => r.username = u)).length,
       condSum ((store.filter (fun r => r.username = u)).map Reading.amper) (fun a => 1 ≤ a),
       condSum ((store.filter (fun r => r.username = u)).map Reading.amper) (fun a => a < 1),
       jsRound
         ((condSum ((store.filter (fun r => r.username = u)).map Reading.amper)
             (fun a => 1 ≤ a) : ℚ)
           / ((store.filter (fun r => r.username = u)).length : ℚ) * 100)⟩ := by
  have hpos : 0 < (store.filter (fun r => r.username = u)).length := Nat.pos_of_ne_zero h
  simp [getUserStats, h, hpos]

/-! ## C2 -/

/-- C2: `getUserStats` returns the user's total reading count, the counts
of readings with amper ≥ 1 and amper < 1, and a percentage equal to
`round(100 * high / total)` when the total is positive and `0` otherwise;
the percentage always lies in [0, 100]. -/
theorem getUserStats_spec (store : List Reading) (u : String) :
    (getUserStats store u).totalReadings = (store.filter (fun r => r.username = u)).length ∧
    (getUserStats store u).highAmpCount
      = condSum ((store.filter (fun r => r.username = u)).map Reading.amper) (fun a => 1 ≤ a) ∧
    (getUserStats store u).lowAmpCount
      = condSum ((store.filter (fun r => r.username = u)).map Reading.amper) (fun a => a < 1) ∧
    (0 < (store.filter (fun r => r.username = u)).length →
      (getUserStats store u).percentage
        = jsRound (100 * ((getUserStats store u).highAmpCount : ℚ)
            / ((getUserStats store u).totalReadings : ℚ))) ∧
    ((store.filter (fun r => r.username = u)).length = 0 →
      (getUserStats store u).percentage = 0) ∧
    0 ≤ (getUserStats store u).percentage ∧ (getUserStats store u).percentage ≤ 100 := by
  by_cases hm : (store.filter (fun r => r.username = u)).length = 0
  · rw [getUserStats_eq_zero store u hm]
    have hfil : store.filter (fun r => r.username = u) = [] := List.length_eq_zero.mp hm
    refine ⟨hm.symm, ?_, ?_, ?_, fun _ => rfl, by norm_num, by norm_num⟩
    · rw [hfil]; rfl
    · rw [hfil]; rfl
    · intro hpos; omega
  · rw [getUserStats_eq_pos store u hm]
    have hpos : 0 < (store.filter (fun r => r.username = u)).length := Nat.pos_of_ne_zero hm
    have hle : condSum ((store.filter (fun r => r.username = u)).map Reading.amper)
        (fun a => 1 ≤ a) ≤ (store.filter (fun r => r.username = u)).length := by
      calc condSum ((store.filter (fun r => r.username = u)).map Reading.amper) (fun a => 1 ≤ a)
          ≤ ((store.filter (fun r => r.username = u)).map Reading.amper).length :=
            condSum_le_length _ _
        _ = (store.filter (fun r => r.username = u)).length := List.length_map _ _
    set h := condSum ((store.filter (fun r => r.username = u)).map Reading.amper)
      (fun a => 1 ≤ a) with hh
    set t := (store.filter (fun r => r.username = u)).length with ht
    have htq : (0 : ℚ) < (t : ℚ) := by exact_mod_cast hpos
    have hq0 : (0 : ℚ) ≤ (h : ℚ) / (t : ℚ) * 100 := by positivity
    have hq1 : (h : ℚ) / (t : ℚ) * 100 ≤ 100 := by
      have : (h : ℚ) / (t : ℚ) ≤ 1 := (div_le_one htq).mpr (by exact_mod_cast hle)
      linarith
    refine ⟨rfl, rfl, rfl, fun _ => ?_, fun hz => absurd hz hm, ?_, ?_⟩
    · show jsRound ((h : ℚ) / (t : ℚ) * 100) = jsRound (100 * (h : ℚ) / (t : ℚ))
      congr 1
      ring
    · show (0 : ℤ) ≤ jsRound ((h : ℚ) / (t : ℚ) * 100)
      exact Int.le_floor.mpr (by push_cast; linarith)
    · show jsRound ((h : ℚ) / (t : ℚ) * 100) ≤ 100
      have hlt : jsRound ((h : ℚ) / (t : ℚ) * 100) < 101 :=
        Int.floor_lt.mpr (by push_cast; linarith)
      omega

/-- Witness for C2 at a concrete one-reading store. -/
theorem getUserStats_spec_witness :
    0 < ([oldReading].filter (fun r => r.username = "u")).length ∧
    (getUserStats [oldReading] "u").percentage
      = jsRound (100 * ((getUserStats [oldReading] "u").highAmpCount : ℚ)
          / ((getUserStats [oldReading] "u").totalReadings : ℚ)) := by
  constructor
  · norm_num [oldReading]
  · exact (getUserStats_spec [oldReading] "u").2.2.2.1 (by norm_num [oldReading])

/-! ## C4 -/

/-- C4: the time-range parser is total and maps each supported token
`1h,6h,12h,24h` (resp. `7d,30d`) to the instant exactly that many hours
(resp. days of 24 hours) before `now`; an absent token, a token failing
the grammar `^(\d+)([hd])$`, or a grammar-matching token with an
unsupported magnitude all yield no filter (`none`). -/
theorem parseTimeRange_spec (now : ℤ) :
    parseTimeRange none now = none ∧
    parseTimeRange (some "abc") now = none ∧
    parseTimeRange (some "40h") now = none ∧
    parseTimeRange (some "1h") now = some (now - 1 * 60 * 60 * 1000) ∧
    parseTimeRange (some "6h") now = some (now - 6 * 60 * 60 * 1000) ∧
    parseTimeRange (some "12h") now = some (now - 12 * 60 * 60 * 1000) ∧
    parseTimeRange (some "24h") now = some (now - 24 * 60 * 60 * 1000) ∧
    parseTimeRange (some "7d") now = some (now - 7 * 24 * 60 * 60 * 1000) ∧
    parseTimeRange (some "30d") now = some (now - 30 * 24 * 60 * 60 * 1000) ∧
    (∀ s, matchTimeToken s = none → parseTimeRange (some s) now = none) ∧
    (∀ s v, matchTimeToken s = some (v, 'h') → v ∉ ([1, 6, 12, 24] : List ℕ) →
      parseTimeRange (some s) now = none) ∧
    (∀ s v, matchTimeToken s = some (v, 'd') → v ∉ ([7, 30] : List ℕ) →
      parseTimeRange (some s) now = none) := by
  refine ⟨rfl, rfl, rfl, ?_, ?_, ?_, ?_, ?_, ?_, ?_, ?_, ?_⟩
  · rfl
  · rfl
  · rfl
  · rfl
  · rfl
  · rfl
  · intro s h
    by_cases hs : s = ""
    · simp [parseTimeRange, hs]
    · simp [parseTimeRange, hs, h]
  · intro s v h hv
    have hs : s ≠ "" := by intro e; rw [e] at h; simp [matchTimeToken] at h
    simp [parseTimeRange, hs, h, hv]
  · intro s v h hv
    have hs : s ≠ "" := by intro e; rw [e] at h; simp [matchTimeToken] at h
    simp [parseTimeRange, hs, h, hv]

/-- Witness for C4: the grammar-matching but unsupported token 40h. -/
theorem parseTimeRange_spec_witness :
    matchTimeToken "40h" = some (40, 'h') ∧
    (40 : ℕ) ∉ ([1, 6, 12, 24] : List ℕ) ∧
    parseTimeRange (some "40h") 0 = none := by
  refine ⟨by decide, by decide, ?_⟩
  exact (parseTimeRange_spec 0).2.2.2.2.2.2.2.2.2.2.1 "40h" 40 (by decide) (by decide)

lemma jsTrim_empty : jsTrim "" = "" := rfl

lemma validateAmperData_ok_fields (p : WritePayload) (c : CleanWrite)
    (h : validateAmperData p = .ok c) : c.productId = p.productId ∧ c.sensor = p.sensor := by
  obtain ⟨pu, pa, ppid, psen⟩ := p
  cases pu with
  | str u =>
      simp only [validateAmperData, JSVal.falsy] at h
      by_cases h1 : u = ""
      · simp [h1] at h
      · rw [if_neg (by simp [h1])] at h
        by_cases h2 : pa = JSVal.undefined ∨ pa = JSVal.null
        · rw [if_pos h2] at h; exact absurd h (by simp)
        · rw [if_neg h2] at h
          by_cases h3 : (jsTrim u).length = 0
          · rw [if_pos h3] at h; exact absurd h (by simp)
          · rw [if_neg h3] at h
            by_cases h4 : u.length > 50
            · rw [if_pos h4] at h; exact absurd h (by simp)
            · rw [if_neg h4] at h
              cases ha : pa.toNumber with
              | none => simp only [ha] at h; exact absurd h (by simp)
              | some a =>
                  simp only [ha] at h
                  by_cases h5 : a < 0
                  · rw [if_pos h5] at h; exact absurd h (by simp)
                  · rw [if_neg h5] at h
                    by_cases h6 : a > 100
                    · rw [if_pos h6] at h; exact absurd h (by simp)
                    · rw [if_neg h6] at h
                      have := Except.ok.inj h
                      rw [← this]
                      exact ⟨rfl, rfl⟩
  | undefined =>
      unfold validateAmperData at h
      split at h
      · exact absurd h (by simp)
      · split at h
        · exact absurd h (by simp)
        · exact absurd h (by simp)
  | null =>
      unfold validateAmperData at h
      split at h
      · exact absurd h (by simp)
      · split at h
        · exact absurd h (by simp)
        · exact absurd h (by simp)
  | nan =>
      unfold validateAmperData at h
      split at h
      · exact absurd h (by simp)
      · split at h
        · exact absurd h (by simp)
        · exact absurd h (by simp)
  | bool b =>
      unfold validateAmperData at h
      split at h
      · exact absurd h (by simp)
      · split at h
        · exact absurd h (by simp)
        · exact absurd h (by simp)
  | num q =>
      unfold validateAmperData at h
      split at h
      · exact absurd h (by simp)
      · split at h
        · exact absurd h (by simp)
        · exact absurd h (by simp)

/-- A successful `findById` pins the argument to the string of the id of
a catalog member. -/
lemma findById_some (catalog : List Product) (v : JSVal) (prod : Product)
    (h : findById catalog v = .ok (some prod)) : prod ∈ catalog ∧ v = .str prod.id := by
  cases v with
  | str s =>
      simp only [findById] at h
      by_cases hid : isObjectIdString s = true
      · rw [if_pos hid] at h
        have hfind : catalog.find? (fun p => p.id = s) = some prod := Except.ok.inj h
        refine ⟨List.mem_of_find?_eq_some hfind, ?_⟩
        have hp := List.find?_some hfind
        simp only [decide_eq_true_eq] at hp
        rw [hp]
      · rw [if_neg hid] at h; exact absurd h (by simp)
  | undefined => simp [findById] at h
  | null => simp [findById] at h
  | nan => simp [findById] at h
  | bool b => simp [findById] at h
  | num q => simp [findById] at h

/-- Success path of `validateAmperData` for a string username and a
numeric-coercible amper, with the trimmed username and coerced amper
passed through. -/
lemma validateAmperData_str_ok (s : String) (av : JSVal) (a : ℚ) (pid : JSVal)
    (sen : Option String) (hnum : av.toNumber = some a)
    (hav : av ≠ .undefined ∧ av ≠ .null) (hne : (jsTrim s).length ≠ 0)
    (hlen : ¬s.length > 50) (h0 : ¬a < 0) (h100 : ¬a > 100) :
    validateAmperData ⟨.str s, av, pid, sen⟩ = .ok ⟨jsTrim s, a, pid, sen⟩ := by
  have hs : s ≠ "" := fun e => hne (by rw [e]; rfl)
  simp only [validateAmperData, JSVal.falsy]
  rw [if_neg (by simp [hs]), if_neg (by simp [hav.1, hav.2]), if_neg hne, if_neg hlen]
  simp only [hnum]
  rw [if_neg h0, if_neg h100]

/-- Failure of `validateAmperData` whenever the raw (pre-trim) username
exceeds 50 characters or the trimmed username is empty. -/
lemma validateAmperData_str_err (s : String) (av : JSVal) (pid : JSVal)
    (sen : Option String) (hbad : (jsTrim s).length = 0 ∨ 50 < s.length) :
    ∃ e, validateAmperData ⟨.str s, av, pid, sen⟩ = .error e := by
  simp only [validateAmperData, JSVal.falsy]
  by_cases hs : s = ""
  · exact ⟨"Username is required", by rw [if_pos (by simp [hs])]⟩
  · rw [if_neg (by simp [hs])]
    by_cases h2 : av = JSVal.undefined ∨ av = JSVal.null
    · exact ⟨"Amper value is required", by rw [if_pos h2]⟩
    · rw [if_neg h2]
      by_cases h3 : (jsTrim s).length = 0
      · exact ⟨"Username must be a non-empty string", by rw [if_pos h3]⟩
      · have hlen : 50 < s.length := hbad.resolve_left h3
        exact ⟨"Username cannot exceed 50 characters", by rw [if_neg h3, if_pos hlen]⟩

/-! ## C10 -/

/-- C10: a write payload whose amper field is the empty string passes
validation — the empty string is neither undefined nor null, and
`Number("")` coerces to 0, which lies in [0, 100] — so validation
succeeds with amper 0, and a full ingest of such a payload stores a
reading with amper 0. -/
theorem empty_string_amper_spec :
    (∀ (pid : JSVal) (sen : Option String) (s : String),
      (jsTrim s).length ≠ 0 → s.length ≤ 50 →
      validateAmperData ⟨.str s, .str "", pid, sen⟩ = .ok ⟨jsTrim s, 0, pid, sen⟩) ∧
    ingest [demoProduct] 7 ⟨.str "esp", .str "", .str demoId, none⟩
      = ⟨201, some ⟨"esp", 0, demoId, none, 7⟩⟩ := by
  constructor
  · intro pid sen s hne hlen
    exact validateAmperData_str_ok s (.str "") 0 pid sen rfl ⟨by simp, by simp⟩ hne
      (by omega) (by norm_num) (by norm_num)
  · decide

/-- Witness for C10 at the username esp. -/
theorem empty_string_amper_spec_witness :
    (jsTrim "esp").length ≠ 0 ∧ "esp".length ≤ 50 ∧
    validateAmperData ⟨.str "esp", .str "", .str demoId, none⟩
      = .ok ⟨jsTrim "esp", 0, .str demoId, none⟩ :=
  ⟨by decide, by decide,
    empty_string_amper_spec.1 (.str demoId) none "esp" (by decide) (by decide)⟩

/-! ## C7 -/

/-- C7 counterexample: the username `a` followed by 50 spaces trims to the
single character `a` (non-empty, well within 50 characters), yet both
validators reject it, because the source checks the raw length
(`username.length > 50`) before trimming. -/
theorem username_trim_length_cex :
    (jsTrim spaceyUsername).length = 1 ∧
    spaceyUsername.length = 51 ∧
    validateUsername (.str spaceyUsername) = .error "Username cannot exceed 50 characters" ∧
    validateAmperData ⟨.str spaceyUsername, .num 1, .str demoId, none⟩
      = .error "Username cannot exceed 50 characters" :=
  ⟨by decide, by decide, by decide, by decide⟩

/-- C7 as amended: validation fails exactly when the username is not a
string, trims to the empty string, or has RAW (pre-trim) length above 50;
when the raw length is at most 50 and the trimmed username is non-empty,
validation succeeds and the trimmed username is used downstream. -/
theorem username_validation_raw_length :
    (∀ v : JSVal, (∀ s, v ≠ .str s) → ∃ e, validateUsername v = .error e) ∧
    (∀ s : String, (jsTrim s).length = 0 ∨ 50 < s.length →
      ∃ e, validateUsername (.str s) = .error e) ∧
    (∀ s : String, (jsTrim s).length ≠ 0 → s.length ≤ 50 →
      validateUsername (.str s) = .ok (jsTrim s)) ∧
    (∀ (s : String) (pid : JSVal) (sen : Option String),
      (jsTrim s).length = 0 ∨ 50 < s.length →
      ∃ e, validateAmperData ⟨.str s, .num 1, pid, sen⟩ = .error e) ∧
    (∀ (s : String) (pid : JSVal) (sen : Option String),
      (jsTrim s).length ≠ 0 → s.length ≤ 50 →
      validateAmperData ⟨.str s, .num 1, pid, sen⟩ = .ok ⟨jsTrim s, 1, pid, sen⟩) := by
  refine ⟨?_, ?_, ?_, ?_, ?_⟩
  · intro v hv
    cases v with
    | str s => exact absurd rfl (hv s)
    | undefined => exact ⟨_, rfl⟩
    | null => exact ⟨_, rfl⟩
    | nan => exact ⟨_, rfl⟩
    | bool b => exact ⟨_, rfl⟩
    | num q => exact ⟨_, rfl⟩
  · intro s hbad
    simp only [validateUsername]
    by_cases h1 : s = "" ∨ (jsTrim s).length = 0
    · exact ⟨_, by rw [if_pos h1]⟩
    · have hlen : 50 < s.length := by
        rcases hbad with hb | hb
        · exact absurd (Or.inr hb) h1
        · exact hb
      exact ⟨_, by rw [if_neg h1, if_pos hlen]⟩
  · intro s hne hlen
    simp only [validateUsername]
    have h1 : ¬(s = "" ∨ (jsTrim s).length = 0) := by
      rintro (e | e)
      · exact hne (by rw [e]; rfl)
      · exact hne e
    rw [if_neg h1, if_neg (by omega)]
  · intro s pid sen hbad
    exact validateAmperData_str_err s (.num 1) pid sen hbad
  · intro s pid sen hne hlen
    exact validateAmperData_str_ok s (.num 1) 1 pid sen rfl ⟨by simp, by simp⟩ hne
      (by omega) (by norm_num) (by norm_num)

/-- Witness for C7 as amended: the plain username bob validates to itself. -/
theorem username_validation_raw_length_witness :
    (jsTrim "bob").length ≠ 0 ∧ "bob".length ≤ 50 ∧
    validateUsername (.str "bob") = .ok (jsTrim "bob") :=
  ⟨by decide, by decide,
    username_validation_raw_length.2.2.1 "bob" (by decide) (by decide)⟩

/-! ## C8 -/

/-- C8 counterexample: ingest succeeds (201) with sensor hum even though
the referenced product declares only the sensor temp, storing a reading
whose sensor lies outside the product's declared sensors. -/
theorem sensor_membership_not_enforced_cex :
    ingest [demoProduct] 0 ⟨.str "u", .num 1, .str demoId, some "hum"⟩
      = ⟨201, some ⟨"u", 1, demoId, some "hum", 0⟩⟩ ∧
    "hum" ∉ demoProduct.sensors :=
  ⟨by decide, by decide⟩

/-- C8 as amended: the write path performs no sensor-membership check —
every inserted reading carries the payload's sensor verbatim (trimmed),
regardless of the product's declared sensors; membership is checked only
by certain read endpoints. -/
theorem ingest_sensor_passthrough :
    ∀ (catalog : List Product) (now : ℤ) (p : WritePayload) (r : Reading),
      (ingest catalog now p).inserted = some r →
      r.sensor = p.sensor.map (fun s => jsTrim s) := by
  intro catalog now p r h
  unfold ingest at h
  cases hv : validateAmperData p with
  | error e => rw [hv] at h; exact absurd h (by simp)
  | ok c =>
      simp only [hv] at h
      cases hf : findById catalog c.productId with
      | error e => simp only [hf] at h; exact absurd h (by simp)
      | ok po =>
          cases po with
          | none => simp only [hf] at h; exact absurd h (by simp)
          | some prod =>
              simp only [hf] at h
              have hr := Option.some.inj h
              have hfields := (validateAmperData_ok_fields p c hv).2
              rw [← hr]
              show c.sensor.map (fun s => jsTrim s) = p.sensor.map (fun s => jsTrim s)
              rw [hfields]

/-- Witness for C8 as amended at the counterexample ingest. -/
theorem ingest_sensor_passthrough_witness :
    (ingest [demoProduct] 0 ⟨.str "u", .num 1, .str demoId, some "hum"⟩).inserted
      = some ⟨"u", 1, demoId, some "hum", 0⟩ ∧
    (⟨"u", 1, demoId, some "hum", 0⟩ : Reading).sensor
      = (some "hum").map (fun s => jsTrim s) :=
  ⟨by decide,
    ingest_sensor_passthrough [demoProduct] 0 ⟨.str "u", .num 1, .str demoId, some "hum"⟩
      ⟨"u", 1, demoId, some "hum", 0⟩ (by decide)⟩

/-! ## C6 -/

/-- C6 counterexample: an ingest whose productId zzz is not in the store's
id format is not rejected with 400 — the current validation layer has no
productId check, the lookup cast throws, and the request fails with 500
(no reading is inserted either way). -/
theorem ingest_malformed_id_cex :
    ingest [demoProduct] 0 ⟨.str "u", .num 1, .str "zzz", none⟩ = ⟨500, none⟩ ∧
    (ingest [demoProduct] 0 ⟨.str "u", .num 1, .str "zzz", none⟩).status ≠ 400 :=
  ⟨by decide, by decide⟩

/-- C6 as amended: an ingest whose productId resolves to no catalog
product never inserts a reading and never returns 201; it returns 400
when the productId is absent (undefined/null) or a well-formed id that
resolves to nothing, and 500 (cast error) for any other productId value
that reaches the lookup. -/
theorem ingest_unresolved_product :
    ∀ (catalog : List Product) (now : ℤ) (p : WritePayload),
      (∀ prod ∈ catalog, JSVal.str prod.id ≠ p.productId) →
      (ingest catalog now p).inserted = none ∧
      (ingest catalog now p).status ≠ 201 ∧
      ((ingest catalog now p).status = 400 ∨ (ingest catalog now p).status = 500) ∧
      ((p.productId = .undefined ∨ p.productId = .null) →
        (ingest catalog now p).status = 400) ∧
      (∀ s, p.productId = .str s → isObjectIdString s = true →
        (ingest catalog now p).status = 400) := by
  intro catalog now p hnone
  unfold ingest
  cases hv : validateAmperData p with
  | error e =>
      simp only [hv]
      refine ⟨by simp, by simp, by simp, by simp, by simp⟩
  | ok c =>
      have hpid := (validateAmperData_ok_fields p c hv).1
      simp only [hv]
      cases hf : findById catalog c.productId with
      | error e =>
          simp only [hf]
          refine ⟨by simp, by simp, by simp, ?_, ?_⟩
          · rintro (h | h)
            · rw [hpid, h] at hf; exact absurd hf (by simp [findById])
            · rw [hpid, h] at hf; exact absurd hf (by simp [findById])
          · intro s hs hid
            rw [hpid, hs] at hf
            simp only [findById] at hf
            rw [if_pos hid] at hf
            exact absurd hf (by simp)
      | ok po =>
          cases po with
          | none =>
              simp only [hf]
              refine ⟨by simp, by simp, by simp, by simp, by simp⟩
          | some prod =>
              obtain ⟨hmem, hveq⟩ := findById_some catalog c.productId prod hf
              rw [hpid] at hveq
              exact absurd hveq.symm (hnone prod hmem)

/-- Witness for C6 as amended: absent productId on the empty catalog. -/
theorem ingest_unresolved_product_witness :
    (ingest [] 0 ⟨.str "u", .num 1, .undefined, none⟩).status = 400 ∧
    (ingest [] 0 ⟨.str "u", .num 1, .undefined, none⟩).inserted = none :=
  ⟨(ingest_unresolved_product [] 0 ⟨.str "u", .num 1, .undefined, none⟩
      (by simp)).2.2.2.1 (Or.inl rfl),
    (ingest_unresolved_product [] 0 ⟨.str "u", .num 1, .undefined, none⟩ (by simp)).1⟩

lemma mem_insertDesc (a r : Reading) (l : List Reading) :
    a ∈ insertDesc r l ↔ a = r ∨ a ∈ l := by
  induction l with
  | nil => simp [insertDesc]
  | cons x xs ih =>
      unfold insertDesc
      split_ifs with hx
      · simp [List.mem_cons]
      · simp only [List.mem_cons, ih]
        tauto

lemma mem_sortByCreatedDesc (a : Reading) (l : List Reading) :
    a ∈ sortByCreatedDesc l ↔ a ∈ l := by
  induction l with
  | nil => simp [sortByCreatedDesc]
  | cons x xs ih =>
      show a ∈ insertDesc x (sortByCreatedDesc xs) ↔ a ∈ x :: xs
      rw [mem_insertDesc, ih, List.mem_cons]

lemma mem_paginate (a : Reading) (lim page : ℕ) (l : List Reading)
    (h : a ∈ paginate lim page l) : a ∈ l := by
  unfold paginate at h
  exact List.drop_subset _ _ (List.take_subset _ _ h)

lemma storeFind_createdAt (store : List Reading) (f : QueryFilter) (c : ℤ)
    (hc : f.createdAtGte = some c) (r : Reading) (h : r ∈ storeFind store f) :
    c ≤ r.createdAt := by
  unfold storeFind at h
  rw [List.mem_filter] at h
  have hm := h.2
  unfold matchesFilter at hm
  rw [hc] at hm
  simp only [Bool.and_eq_true, decide_eq_true_eq] at hm
  exact hm.2

lemma storeFind_sensor (store : List Reading) (f : QueryFilter) (s : String)
    (hs : f.sensor = some s) (r : Reading) (h : r ∈ storeFind store f) :
    r.sensor = some s := by
  unfold storeFind at h
  rw [List.mem_filter] at h
  have hm := h.2
  unfold matchesFilter at hm
  rw [hs] at hm
  simp only [Bool.and_eq_true, decide_eq_true_eq] at hm
  exact hm.1.2

/-! ## C5 -/

/-- C5 counterexample: in the `src/routes/api.js` user-readings handler a
valid 24h token parses to a cutoff, yet a reading far older than the
cutoff is still returned and counted in the pagination total, because the
`createdAt` condition is commented out of the filter. -/
theorem timeRange_not_applied_cex :
    parseTimeRange (some "24h") 1000000000000 = some 999913600000 ∧
    oldReading.createdAt < 999913600000 ∧
    userReadingsEndpointApi [demoProduct] [oldReading] demoId "u" (some "24h") 50 1 1000000000000
      = .ok ⟨none, [oldReading], 1, some 999913600000⟩ :=
  ⟨by decide, by decide, by decide⟩

/-- C5 as amended: only the `src/unnamed/part_001` variant handlers apply
the parsed cutoff — there, every returned reading and every counted
reading has `createdAt ≥ cutoff` and older readings are excluded — while
the handlers in `src/routes/api.js` compute the cutoff (echoing it in
`meta.filteredFrom`) but leave the time condition out of the filter. -/
theorem timeRange_applied_part001 :
    ∀ (catalog : List Product) (store : List Reading) (pid u : String)
      (sp tr : Option String) (lim page : ℕ) (now c : ℤ) (res : PagedResult),
      parseTimeRange tr now = some c →
      sensorReadingsEndpointPart001 catalog store pid u sp tr lim page now = .ok res →
      (∀ r ∈ res.readings, c ≤ r.createdAt) ∧
      (∀ r ∈ store, r.createdAt < c → r ∉ res.readings) ∧
      res.filteredFrom = some c := by
  intro catalog store pid u sp tr lim page now c res hc hres
  unfold sensorReadingsEndpointPart001 at hres
  cases hf : findById catalog (.str pid) with
  | error e => rw [hf] at hres; exact absurd hres (by simp)
  | ok po =>
      cases po with
      | none => rw [hf] at hres; exact absurd hres (by simp)
      | some product =>
          simp only [hf] at hres
          split at hres
          · exact absurd hres (by simp)
          · simp only [hc] at hres
            have hr := ReadResp.ok.inj hres
            have hreadings : res.readings =
                paginate lim page (sortByCreatedDesc (storeFind store
                  ⟨pid, u, if sensorTruthy sp = true then sp else none, some c⟩)) := by
              rw [← hr]
            have hfrom : res.filteredFrom = some c := by rw [← hr]
            have hmem : ∀ r ∈ res.readings, c ≤ r.createdAt := by
              intro r hrm
              rw [hreadings] at hrm
              have h1 := mem_paginate _ _ _ _ hrm
              rw [mem_sortByCreatedDesc] at h1
              exact storeFind_createdAt _ _ c rfl r h1
            exact ⟨hmem, fun r _ hlt hrm => absurd (hmem r hrm) (by omega), hfrom⟩

/-- Witness for C5 as amended: with a 24h window, the part_001 handler
returns only the recent reading. -/
theorem timeRange_applied_part001_witness :
    parseTimeRange (some "24h") 1000000000000 = some 999913600000 ∧
    sensorReadingsEndpointPart001 [demoProduct] [oldReading, recentReading] demoId "u"
        none (some "24h") 50 1 1000000000000
      = .ok ⟨none, [recentReading], 1, some 999913600000⟩ ∧
    (∀ r ∈ (⟨none, [recentReading], 1, some 999913600000⟩ : PagedResult).readings,
      (999913600000 : ℤ) ≤ r.createdAt) :=
  ⟨by decide, by decide,
    (timeRange_applied_part001 [demoProduct] [oldReading, recentReading] demoId "u"
      none (some "24h") 50 1 1000000000000 999913600000
      ⟨none, [recentReading], 1, some 999913600000⟩ (by decide) (by decide)).1⟩

/-! ## C9 -/

/-- C9: in the sensor-filtered readings handler the requested sensor name
is decoded (plus signs to spaces, then percent-decoding) before any
comparison; when the decoded name is not among the product's sensors the
handler answers 400 with the message listing the product's valid sensor
names, and when it is among them the handler proceeds, filtering the
readings by the decoded name. -/
theorem sensor_filter_validation_spec :
    ∀ (catalog : List Product) (store : List Reading) (pid u s d : String)
      (tr : Option String) (lim page : ℕ) (now : ℤ) (product : Product),
      findById catalog (.str pid) = .ok (some product) →
      s ≠ "" →
      decodeURIComponentModel (plusToSpace s) = some d →
      d ≠ "" →
      ((d ∉ product.sensors →
        sensorReadingsEndpointApi catalog store pid u (some s) tr lim page now
          = .badRequest (sensorErrMsg d product.sensors)) ∧
       (d ∈ product.sensors →
        ∃ res, sensorReadingsEndpointApi catalog store pid u (some s) tr lim page now
            = .ok res ∧ res.sensor = some d ∧ ∀ r ∈ res.readings, r.sensor = some d)) := by
  intro catalog store pid u s d tr lim page now product hfind hs hdec hd
  have hdecode : decodeSensorParam (some s) = some (some d) := by
    simp only [decodeSensorParam, if_neg hs, hdec, Option.map]
  have htruthy : sensorTruthy (some d) = true := by simp [sensorTruthy, hd]
  constructor
  · intro hnot
    unfold sensorReadingsEndpointApi
    simp only [hdecode, hfind]
    rw [if_pos ⟨htruthy, by simpa using hnot⟩]
    simp [Option.getD]
  · intro hmem
    unfold sensorReadingsEndpointApi
    simp only [hdecode, hfind]
    have hcond : ¬(sensorTruthy (some d) = true ∧ (some d).getD "" ∉ product.sensors) := by
      rintro ⟨_, hn⟩
      exact hn (by simpa using hmem)
    rw [if_neg hcond]
    refine ⟨_, rfl, ?_, ?_⟩
    · show (if sensorTruthy (some d) = true then some d else none) = some d
      rw [if_pos htruthy]
    · intro r hr
      have h1 := mem_paginate _ _ _ _ hr
      rw [mem_sortByCreatedDesc] at h1
      refine storeFind_sensor _ _ d ?_ r h1
      show (if sensorTruthy (some d) = true then some d else none) = some d
      rw [if_pos htruthy]

/-- Witness for C9: the URL-encoded parameter temp+sensor decodes to the
declared sensor name (with a space) and the handler proceeds; the proof
applies the theorem at this concrete product and query. -/
theorem sensor_filter_validation_spec_witness :
    findById [spacedProduct] (.str demoId) = .ok (some spacedProduct) ∧
    decodeURIComponentModel (plusToSpace "temp+sensor") = some "temp sensor" ∧
    ∃ res, sensorReadingsEndpointApi [spacedProduct] [] demoId "u" (some "temp+sensor")
          none 50 1 0
        = .ok res ∧ res.sensor = some "temp sensor" ∧
        ∀ r ∈ res.readings, r.sensor = some "temp sensor" :=
  ⟨by decide, by decide,
    (sensor_filter_validation_spec [spacedProduct] [] demoId "u" "temp+sensor" "temp sensor"
      none 50 1 0 spacedProduct (by decide) (by decide) (by decide) (by decide)).2 (by decide)⟩

lemma addReading_username (r : Reading) (g : UserGroup) :
    (addReading r g).username = g.username := rfl

lemma foldAdd_cons (g : UserGroup) (r : Reading) (rs : List Reading) :
    foldAdd g (r :: rs) = foldAdd (addReading r g) rs := rfl

lemma foldAdd_username (rs : List Reading) : ∀ g : UserGroup,
    (foldAdd g rs).username = g.username := by
  induction rs with
  | nil => intro g; rfl
  | cons r t ih => intro g; rw [foldAdd_cons, ih, addReading_username]

lemma foldAdd_readings (rs : List Reading) : ∀ g : UserGroup,
    (foldAdd g rs).readings = g.readings ++ rs := by
  induction rs with
  | nil => intro g; simp [foldAdd]
  | cons r t ih =>
      intro g
      rw [foldAdd_cons, ih]
      simp [addReading]

lemma foldAdd_total (rs : List Reading) : ∀ g : UserGroup,
    (foldAdd g rs).totalReadings = g.totalReadings + rs.length := by
  induction rs with
  | nil => intro g; simp [foldAdd]
  | cons r t ih =>
      intro g
      rw [foldAdd_cons, ih]
      simp [addReading]
      omega

lemma foldAdd_latest (rs : List Reading) : ∀ g : UserGroup,
    (foldAdd g rs).latestReading = latestFold g.latestReading rs := by
  induction rs with
  | nil => intro g; rfl
  | cons r t ih =>
      intro g
      rw [foldAdd_cons, ih]
      rfl

lemma latestFold_some_spec (rs : List Reading) : ∀ c : Reading,
    ∃ m, latestFold (some c) rs = some m ∧ (m = c ∨ m ∈ rs) ∧
      c.createdAt ≤ m.createdAt ∧ ∀ r ∈ rs, r.createdAt ≤ m.createdAt := by
  induction rs with
  | nil => intro c; exact ⟨c, rfl, Or.inl rfl, le_refl _, by simp⟩
  | cons r t ih =>
      intro c
      show ∃ m, latestFold (updateLatest (some c) r) t = some m ∧ _
      simp only [updateLatest]
      split_ifs with hlt
      · obtain ⟨m, hm, hmem, hle, hall⟩ := ih r
        refine ⟨m, hm, ?_, ?_, ?_⟩
        · rcases hmem with e | e
          · exact Or.inr (by simp [e])
          · exact Or.inr (by simp [e])
        · exact le_trans (le_of_lt hlt) hle
        · intro x hx
          rcases List.mem_cons.mp hx with e | e
          · rw [e]; exact hle
          · exact hall x e
      · obtain ⟨m, hm, hmem, hle, hall⟩ := ih c
        refine ⟨m, hm, ?_, hle, ?_⟩
        · rcases hmem with e | e
          · exact Or.inl e
          · exact Or.inr (by simp [e])
        · intro x hx
          rcases List.mem_cons.mp hx with e | e
          · rw [e]; exact le_trans (not_lt.mp hlt) hle
          · exact hall x e

lemma latestFold_none_spec (r : Reading) (t : List Reading) :
    ∃ m, latestFold none (r :: t) = some m ∧ m ∈ r :: t ∧
      ∀ x ∈ r :: t, x.createdAt ≤ m.createdAt := by
  obtain ⟨m, hm, hmem, hle, hall⟩ := latestFold_some_spec t r
  refine ⟨m, hm, ?_, ?_⟩
  · rcases hmem with e | e
    · simp [e]
    · simp [e]
  · intro x hx
    rcases List.mem_cons.mp hx with e | e
    · rw [e]; exact hle
    · exact hall x e

lemma filter_map_username (f : UserGroup → UserGroup)
    (hf : ∀ g, (f g).username = g.username) (l : List UserGroup) (u : String) :
    (l.map f).filter (fun g => g.username = u)
      = (l.filter (fun g => g.username = u)).map f := by
  induction l with
  | nil => rfl
  | cons g t ih =>
      by_cases h : g.username = u
      · simp [List.filter_cons, h, hf g, ih]
      · simp [List.filter_cons, h, hf g, ih]

lemma groupStep_filter_eq (acc : List UserGroup) (r : Reading) (u : String)
    (hru : r.username ≠ u) :
    (groupStep acc r).filter (fun g => g.username = u)
      = acc.filter (fun g => g.username = u) := by
  unfold groupStep
  split_ifs with hany
  · rw [filter_map_username _ (fun x => by split_ifs <;> rfl)]
    have hid : ∀ g ∈ acc.filter (fun g => g.username = u),
        (if g.username = r.username then addReading r g else g) = g := by
      intro g hg
      have hgu : g.username = u := by simpa using List.of_mem_filter hg
      rw [if_neg (by rw [hgu]; exact fun e => hru e.symm)]
    rw [List.map_congr_left hid]
    exact List.map_id _
  · rw [List.filter_append]
    have hnew : ([addReading r (emptyGroup r.username)]).filter
        (fun g => g.username = u) = [] := by
      simp [List.filter_cons, addReading, emptyGroup, hru]
    rw [hnew, List.append_nil]

lemma groupStep_filter_existing (acc : List UserGroup) (r : Reading) (u : String)
    (hru : r.username = u) (g0 : UserGroup)
    (hg0 : acc.filter (fun g => g.username = u) = [g0]) :
    (groupStep acc r).filter (fun g => g.username = u) = [addReading r g0] := by
  have hg0mem : g0 ∈ acc := List.mem_of_mem_filter (by rw [hg0]; simp)
  have hg0u : g0.username = u := by
    have := List.of_mem_filter
      (show g0 ∈ acc.filter (fun g => g.username = u) by rw [hg0]; simp)
    simpa using this
  have hany : acc.any (fun g => g.username = r.username) = true :=
    List.any_eq_true.mpr ⟨g0, hg0mem, by simp [hg0u, hru]⟩
  unfold groupStep
  rw [if_pos hany, filter_map_username _ (fun x => by split_ifs <;> rfl), hg0]
  simp [hg0u, hru]

lemma groupStep_filter_new (acc : List UserGroup) (r : Reading) (u : String)
    (hru : r.username = u)
    (hnil : acc.filter (fun g => g.username = u) = []) :
    (groupStep acc r).filter (fun g => g.username = u)
      = [addReading r (emptyGroup r.username)] := by
  have hany : acc.any (fun g => g.username = r.username) = false := by
    cases h : acc.any (fun g => g.username = r.username) with
    | false => rfl
    | true =>
        obtain ⟨x, hx, hpx⟩ := List.any_eq_true.mp h
        have hxu : x.username = u := by rw [← hru]; simpa using hpx
        have hmem : x ∈ acc.filter (fun g => g.username = u) :=
          List.mem_filter.mpr ⟨hx, by simp [hxu]⟩
        rw [hnil] at hmem
        simp at hmem
  unfold groupStep
  rw [if_neg (by simp [hany]), List.filter_append, hnil]
  simp [List.filter_cons, addReading, emptyGroup, hru]

lemma filter_singleton_of (acc : List UserGroup) (v : String)
    (hlen : (acc.filter (fun g => g.username = v)).length ≤ 1)
    (hne : acc.filter (fun g => g.username = v) ≠ []) :
    ∃ g0, acc.filter (fun g => g.username = v) = [g0] := by
  cases hfil : acc.filter (fun g => g.username = v) with
  | nil => exact absurd hfil hne
  | cons a t =>
      rw [hfil] at hlen
      simp only [List.length_cons] at hlen
      have ht : t = [] := List.length_eq_zero.mp (by omega)
      exact ⟨a, by rw [ht]⟩

lemma groupStep_inv (acc : List UserGroup) (r : Reading)
    (hinv : ∀ v : String, (acc.filter (fun g => g.username = v)).length ≤ 1) :
    ∀ v : String, ((groupStep acc r).filter (fun g => g.username = v)).length ≤ 1 := by
  intro v
  by_cases hrv : r.username = v
  · by_cases hc : acc.filter (fun g => g.username = v) = []
    · rw [groupStep_filter_new acc r v hrv hc]; simp
    · obtain ⟨g0, hg0⟩ := filter_singleton_of acc v (hinv v) hc
      rw [groupStep_filter_existing acc r v hrv g0 hg0]; simp
  · rw [groupStep_filter_eq acc r v hrv]
    exact hinv v

lemma groupStep_fold_spec (l : List Reading) : ∀ acc : List UserGroup,
    (∀ v : String, (acc.filter (fun g => g.username = v)).length ≤ 1) →
    ∀ u : String,
      (∀ g0, acc.filter (fun g => g.username = u) = [g0] →
        (List.foldl groupStep acc l).filter (fun g => g.username = u)
          = [foldAdd g0 (l.filter (fun r => r.username = u))]) ∧
      (acc.filter (fun g => g.username = u) = [] →
        (List.foldl groupStep acc l).filter (fun g => g.username = u)
          = if l.filter (fun r => r.username = u) = [] then []
            else [foldAdd (emptyGroup u) (l.filter (fun r => r.username = u))]) := by
  induction l with
  | nil =>
      intro acc hinv u
      refine ⟨?_, ?_⟩
      · intro g0 h
        simpa [foldAdd] using h
      · intro h
        simpa using h
  | cons r t ih =>
      intro acc hinv u
      have hinv' := groupStep_inv acc r hinv
      have hfold : List.foldl groupStep acc (r :: t)
          = List.foldl groupStep (groupStep acc r) t := rfl
      by_cases hru : r.username = u
      · have hfcons : (r :: t).filter (fun x => x.username = u)
            = r :: t.filter (fun x => x.username = u) := by
          simp [List.filter_cons, hru]
        refine ⟨?_, ?_⟩
        · intro g0 hg0
          have hstep := groupStep_filter_existing acc r u hru g0 hg0
          have hrec := (ih (groupStep acc r) hinv' u).1 (addReading r g0) hstep
          rw [hfold, hrec, hfcons, foldAdd_cons]
        · intro hnil
          have hstep := groupStep_filter_new acc r u hru hnil
          rw [hru] at hstep
          have hrec := (ih (groupStep acc r) hinv' u).1 (addReading r (emptyGroup u)) hstep
          rw [hfold, hrec, hfcons, if_neg (by simp), foldAdd_cons]
      · have hfcons : (r :: t).filter (fun x => x.username = u)
            = t.filter (fun x => x.username = u) := by
          simp [List.filter_cons, hru]
        have hstep := groupStep_filter_eq acc r u hru
        refine ⟨?_, ?_⟩
        · intro g0 hg0
          have hrec := (ih (groupStep acc r) hinv' u).1 g0 (by rw [hstep, hg0])
          rw [hfold, hrec, hfcons]
        · intro hnil
          have hrec := (ih (groupStep acc r) hinv' u).2 (by rw [hstep, hnil])
          rw [hfold, hrec, hfcons]

lemma groupByUsername_filter (l : List Reading) (u : String) :
    (groupByUsername l).filter (fun g => g.username = u)
      = if l.filter (fun r => r.username = u) = [] then []
        else [foldAdd (emptyGroup u) (l.filter (fun r => r.username = u))] :=
  (groupStep_fold_spec l [] (by intro v; simp) u).2 (by simp)

lemma productUsers_filter (l : List Reading) (u : String) :
    (productUsers l).filter (fun g => g.username = u)
      = if l.filter (fun r => r.username = u) = [] then []
        else [finalizeGroup (foldAdd (emptyGroup u)
          (l.filter (fun r => r.username = u)))] := by
  unfold productUsers
  rw [filter_map_username finalizeGroup (fun g => rfl) _ u, groupByUsername_filter]
  split_ifs <;> simp

/-! ## C3 -/

/-- C3: grouping a product's readings by username partitions them — each
username occurring in the list yields exactly one group, whose
`totalReadings` is the number of that user's readings, whose
`latestReading` is one of that user's readings with maximal `createdAt`,
and whose `averageAmper` is the mean of that user's amper values rounded
to two decimals; the spec's three-reading example yields the groups
a:{total 2, avg 0.75} and b:{total 1, avg 2}. -/
theorem productUsers_spec :
    (∀ (l : List Reading) (u : String),
      (((productUsers l).filter (fun g => g.username = u)).length
        = if l.filter (fun r => r.username = u) = [] then 0 else 1) ∧
      (∀ g ∈ productUsers l, g.username = u →
        g.totalReadings = (l.filter (fun r => r.username = u)).length ∧
        (∃ m, g.latestReading = some m ∧ m ∈ l.filter (fun r => r.username = u) ∧
          ∀ r ∈ l.filter (fun r => r.username = u), r.createdAt ≤ m.createdAt) ∧
        g.averageAmper
          = round2 ((((l.filter (fun r => r.username = u)).map Reading.amper).sum)
              / ((l.filter (fun r => r.username = u)).length : ℚ)))) ∧
    productUsers [rA1, rA2, rB]
      = [⟨"a", 2, some rA2, 3 / 4, []⟩, ⟨"b", 1, some rB, 2, []⟩] := by
  constructor
  · intro l u
    constructor
    · rw [productUsers_filter]
      split_ifs <;> simp
    · intro g hg hgu
      have hgf : g ∈ (productUsers l).filter (fun g => g.username = u) :=
        List.mem_filter.mpr ⟨hg, by simp [hgu]⟩
      rw [productUsers_filter] at hgf
      by_cases hnil : l.filter (fun r => r.username = u) = []
      · rw [if_pos hnil] at hgf
        simp at hgf
      · rw [if_neg hnil] at hgf
        have hgeq : g = finalizeGroup (foldAdd (emptyGroup u)
            (l.filter (fun r => r.username = u))) := by simpa using hgf
        subst hgeq
        refine ⟨?_, ?_, ?_⟩
        · show (foldAdd (emptyGroup u)
              (l.filter (fun r => r.username = u))).totalReadings = _
          rw [foldAdd_total]
          simp [emptyGroup]
        · have hlat : (finalizeGroup (foldAdd (emptyGroup u)
              (l.filter (fun r => r.username = u)))).latestReading
              = latestFold none (l.filter (fun r => r.username = u)) := by
            show (foldAdd (emptyGroup u)
                (l.filter (fun r => r.username = u))).latestReading = _
            rw [foldAdd_latest]
            rfl
          cases hcase : l.filter (fun r => r.username = u) with
          | nil => exact absurd hcase hnil
          | cons a t =>
              rw [hcase] at hlat
              obtain ⟨m, hm, hmem, hall⟩ := latestFold_none_spec a t
              refine ⟨m, ?_, ?_, ?_⟩
              · rw [hlat, hm]
              · exact hmem
              · exact hall
        · have hpos : 0 < (l.filter (fun r => r.username = u)).length :=
            List.length_pos.mpr hnil
          simp only [finalizeGroup]
          rw [foldAdd_readings]
          have hrd : (emptyGroup u).readings ++ l.filter (fun r => r.username = u)
              = l.filter (fun r => r.username = u) := by simp [emptyGroup]
          rw [hrd, if_pos hpos]
  · have h1 : ("a" : String) ≠ "b" := by decide
    have h2 : ("b" : String) ≠ "a" := by decide
    norm_num [productUsers, groupByUsername, groupStep, addReading, finalizeGroup,
      emptyGroup, updateLatest, rA1, rA2, rB, round2, jsRound, h1, h2]

/-- Witness for C3: the group of user a in the example has totalReadings
equal to the number of readings of a. -/
theorem productUsers_spec_witness :
    (⟨"a", 2, some rA2, 3 / 4, []⟩ : UserGroup).totalReadings
      = (([rA1, rA2, rB] : List Reading).filter (fun r => r.username = "a")).length :=
  ((productUsers_spec.1 [rA1, rA2, rB] "a").2 ⟨"a", 2, some rA2, 3 / 4, []⟩
    (by rw [productUsers_spec.2]; simp) rfl).1

end AmperBackend
